import Mathlib

/-!
Verification development for the drone-detection proof of concept.

The definitions below are a shallow embedding of the two source files
`hackrf_sweep_classes.py` (ring buffer, `SignalStore`) and `listen.py`
(noise floor, squelch, contiguous-region merge, bandwidth classification).
Frequencies and timestamps are integers (timestamps in whole seconds,
matching the second-resolution timestamps of the input), signal strengths
are rationals, Python exceptions are modelled as `Except` errors, and the
`multiprocessing.Lock` is ignored (single-writer semantics, no concurrency
is modelled).
-/

namespace DroneDetect

/-- `Measurement` from `hackrf_sweep_classes.py`: timestamp (seconds),
bucket low edge, bucket high edge, signal strength in dB. -/
structure Measurement where
  datetime : ℤ
  hz_low : ℤ
  hz_high : ℤ
  db : ℚ
deriving DecidableEq, Repr

/-- `SignalStore._ringbuf`: fixed-capacity circular buffer.
Fields mirror `_size`, `_cursor`, `_data`, `_full` (the lock is not modelled). -/
structure Ringbuf (α : Type) where
  size : ℕ
  cursor : ℕ
  data : List α
  full : Bool
deriving DecidableEq, Repr

/-- `_ringbuf.__init__(size)`. -/
def Ringbuf.init {α : Type} (size : ℕ) : Ringbuf α :=
  { size := size, cursor := 0, data := [], full := false }

/-- `_ringbuf.add(val)`: overwrite at the cursor when full, else append and
raise the full flag once `size` elements are held.  (`set` keeps the list
length, so taking the modulus over `rb.data.length` matches Python's
`% len(self._data)` after the slot assignment.) -/
def Ringbuf.add {α : Type} (rb : Ringbuf α) (val : α) : Ringbuf α :=
  if rb.full then
    { rb with data := rb.data.set rb.cursor val,
              cursor := (rb.cursor + 1) % rb.data.length }
  else
    let data := rb.data ++ [val]
    { rb with data := data,
              full := if rb.size ≤ data.length then true else rb.full }

/-- `_ringbuf.get_data_copy()`: chronological copy; when full, the slice
from the cursor to the end followed by the slice from the start to the
cursor. -/
def Ringbuf.get_data_copy {α : Type} (rb : Ringbuf α) : List α :=
  if rb.full then rb.data.drop rb.cursor ++ rb.data.take rb.cursor
  else rb.data

/-- The opaque config object; only the key read by `analyze` is modelled. -/
structure Config where
  skip_analysis : Bool
deriving DecidableEq, Repr

/-- `SignalStore` state: `_ranges` is the insertion-ordered dict from bucket
low edge to ring buffer, plus `_BUFSIZE`, `_bucket_width` (Python `None`
modelled as `none`) and the warmup bookkeeping fields. -/
structure SignalStore where
  ranges : List (ℤ × Ringbuf Measurement)
  BUFSIZE : ℕ
  bucket_width : Option ℤ
  config : Config
  warmed_up : Bool
  warmup_measurement_count : ℕ
  warmup_bucket_frequency : ℤ
  warmup_first_datetime : ℤ
  warmup_resize_ringbufs : Bool
deriving DecidableEq, Repr

/-- `SignalStore.__init__(config)`. -/
def SignalStore.mk0 (config : Config) : SignalStore :=
  { ranges := [], BUFSIZE := 200, bucket_width := none, config := config,
    warmed_up := false, warmup_measurement_count := 0,
    warmup_bucket_frequency := 0, warmup_first_datetime := 0,
    warmup_resize_ringbufs := false }

/-- `SignalStore.is_warmed_up()`. -/
def SignalStore.is_warmed_up (st : SignalStore) : Bool :=
  st.warmed_up

/-- Python truthiness of `self._bucket_width : Option ℤ`:
`None` and `0` are falsy. -/
def intTruthy : Option ℤ → Bool
  | none => false
  | some w => w != 0

/-- Errors raised by the store (`IndexError` from `measurements[0]` on an
empty batch) and by the analysis path. -/
inductive StoreError where
  | indexError
deriving DecidableEq, Repr

/-- Errors surfaced by `analyze`: the `ZeroDivisionError` in
`compute_noise_floor` (the spec's `InsufficientData`), and the `Exception`
raised by `get_bucket_width` when the width is unset (the spec's
`NotReady`). -/
inductive AnalyzeError where
  | insufficientData
  | noBucketWidth
deriving DecidableEq, Repr

/-- `SignalStore.get_bucket_width()`: raises when `_bucket_width` is falsy. -/
def SignalStore.get_bucket_width (st : SignalStore) : Except AnalyzeError ℤ :=
  match st.bucket_width with
  | some w => if w ≠ 0 then .ok w else .error .noBucketWidth
  | none => .error .noBucketWidth

/-- `SignalStore.get_measurements_copy()`: per-bucket chronological copy. -/
def SignalStore.get_measurements_copy (st : SignalStore) :
    List (ℤ × List Measurement) :=
  st.ranges.map (fun p => (p.1, p.2.get_data_copy))

/-- Update the value stored at the first occurrence of key `k` in an
association list (Python dict item assignment for an existing key). -/
def assocUpdate (l : List (ℤ × Ringbuf Measurement)) (k : ℤ)
    (f : Ringbuf Measurement → Ringbuf Measurement) :
    List (ℤ × Ringbuf Measurement) :=
  match l with
  | [] => []
  | p :: t => if p.1 = k then (p.1, f p.2) :: t else p :: assocUpdate t k f

/-- The body of the `for m in measurements` loop of
`SignalStore.add_measurements`: warmup counting and flag raising, then
routing into the bucket's ring buffer (created lazily on `KeyError`). -/
def addOne (st : SignalStore) (m : Measurement) : SignalStore :=
  let st1 :=
    if st.is_warmed_up = false ∧ st.warmup_bucket_frequency = m.hz_low then
      let st' := { st with
        warmup_measurement_count := st.warmup_measurement_count + 1 }
      if 1 < m.datetime - st'.warmup_first_datetime then
        { st' with warmup_resize_ringbufs := true }
      else st'
    else st
  if (st1.ranges.lookup m.hz_low).isSome then
    { st1 with ranges := assocUpdate st1.ranges m.hz_low (fun rb => rb.add m) }
  else
    { st1 with ranges :=
        st1.ranges ++ [(m.hz_low, (Ringbuf.init st1.BUFSIZE).add m)] }

/-- Lines 121-123 of `add_measurements`: derive the bucket width from the
first measurement when `_bucket_width` is falsy (`measurements[0]` raises
`IndexError` on an empty batch). -/
def widthStep (st : SignalStore) (measurements : List Measurement) :
    Except StoreError SignalStore :=
  if intTruthy st.bucket_width then .ok st
  else
    match measurements with
    | [] => .error .indexError
    | m :: _ => .ok { st with bucket_width := some (m.hz_high - m.hz_low) }

/-- Lines 127-129 of `add_measurements`: pick the reference bucket and
epoch0 when `_warmup_bucket_frequency` is falsy (`0` counts as unset). -/
def refStep (st : SignalStore) (measurements : List Measurement) :
    Except StoreError SignalStore :=
  if st.warmup_bucket_frequency ≠ 0 then .ok st
  else
    match measurements with
    | [] => .error .indexError
    | m :: _ => .ok { st with warmup_bucket_frequency := m.hz_low,
                              warmup_first_datetime := m.datetime }

/-- Lines 132-144 of `add_measurements`: when still calibrating and the
resize flag is pending, complete the warmup: clear the flag, shrink
`_BUFSIZE` to the accumulated count, destroy every ring buffer and set the
warmed flag. -/
def resizeStep (st : SignalStore) : SignalStore :=
  if st.is_warmed_up = false ∧ st.warmup_resize_ringbufs = true then
    { st with warmup_resize_ringbufs := false,
              BUFSIZE := st.warmup_measurement_count,
              ranges := [],
              warmed_up := true }
  else st

/-- `SignalStore.add_measurements(measurements)` (the `ingest` of the
spec): bucket-width derivation, reference-bucket pick and pending resize
in source order (each of the first two propagating the `IndexError` of an
empty batch), then the routing loop. -/
def SignalStore.add_measurements (st : SignalStore)
    (measurements : List Measurement) : Except StoreError SignalStore :=
  match widthStep st measurements with
  | .error e => .error e
  | .ok st1 =>
    match refStep st1 measurements with
    | .error e => .error e
    | .ok st2 => .ok (measurements.foldl addOne (resizeStep st2))

/-- A sequence of `add_measurements` calls, stopping at the first error. -/
def ingestMany (st : SignalStore) : List (List Measurement) →
    Except StoreError SignalStore
  | [] => .ok st
  | b :: bs =>
    match st.add_measurements b with
    | .error e => .error e
    | .ok st' => ingestMany st' bs

/-- `compute_noise_floor` from `listen.py`: mean of the weakest quarter
(by integer division) of the per-bucket averages.  A quarter length of
zero makes Python divide by zero; that failure is the typed error here. -/
def compute_noise_floor (average_bucket_strengths : List (ℤ × ℚ)) :
    Except AnalyzeError ℚ :=
  let sorted_dbs :=
    List.insertionSort (· ≤ ·) (average_bucket_strengths.map Prod.snd)
  let quarter_len := sorted_dbs.length / 4
  if quarter_len = 0 then .error .insufficientData
  else .ok ((sorted_dbs.take quarter_len).sum / (quarter_len : ℚ))

/-- `find_signal_buckets`: walk the bucket keys in ascending order and keep
those whose average exceeds the floor plus the squelch margin (3 dB),
accumulating keys and strengths in matching order. -/
def find_signal_buckets (average_bucket_strengths : List (ℤ × ℚ))
    (noise_floor : ℚ) : List ℤ × List ℚ :=
  (List.insertionSort (· ≤ ·) (average_bucket_strengths.map Prod.fst)).foldl
    (fun acc k =>
      let v := ((average_bucket_strengths.lookup k).getD 0)
      if noise_floor + 3 < v then (acc.1 ++ [k], acc.2 ++ [v]) else acc)
    ([], [])

/-- Inner `while` of `get_contiguous_regions` (lines 80-86): extend the
region while the current range's high edge equals the next range's low
edge; note the source sets `end` to the NEXT range's LOW edge.  The fuel
argument only bounds the iteration count: the loop advances `i` each
round and stops before `len - 1`, so `sr.length + 1` fuel is never
exhausted at the call site (out-of-range indexing, which would raise in
Python, is likewise unreachable there). -/
def ccrInner (sr : List (ℤ × ℤ)) : ℕ → ℕ → ℤ → ℕ × ℤ
  | 0, i, e => (i, e)
  | fuel + 1, i, e =>
    if (sr.getD i (0, 0)).2 = (sr.getD (i + 1) (0, 0)).1 then
      let e' := (sr.getD (i + 1) (0, 0)).1
      if sr.length - 1 ≤ i + 1 then (i + 1, e')
      else ccrInner sr fuel (i + 1) e'
    else (i, e)

/-- Outer `while True` of `get_contiguous_regions` (lines 72-94): open a
region at the current range, run the inner loop, append the region, then
advance; break once the index reaches `len - 1` (so the last range never
opens a region of its own). -/
def ccrOuter (sr : List (ℤ × ℤ)) : ℕ → ℕ → List (ℤ × ℤ) → List (ℤ × ℤ)
  | 0, _, acc => acc
  | fuel + 1, i, acc =>
    let start := (sr.getD i (0, 0)).1
    let e0 := (sr.getD i (0, 0)).2
    let p := ccrInner sr (sr.length + 1) i e0
    let acc' := acc ++ [(start, p.2)]
    if sr.length - 1 ≤ p.1 + 1 then acc'
    else ccrOuter sr fuel (p.1 + 1) acc'

/-- `get_contiguous_regions`: only runs the merge when strictly more than
two ranges carry signal (`if len(signal_ranges) > 2`), else returns no
regions at all. -/
def get_contiguous_regions (bucket_width : ℤ)
    (bucket_ranges : List (ℤ × ℤ × ℤ)) (has_signal : List ℤ)
    (signal_strengths : List ℚ) : List (ℤ × ℤ) :=
  let signal_ranges := has_signal.map (fun f => (bucket_ranges.lookup f).getD (0, 0))
  if 2 < signal_ranges.length then
    ccrOuter signal_ranges (signal_ranges.length + 1) 0 []
  else []

/-- `get_drone_regions`: keep the contiguous regions strictly wider than
`BANDWIDTH_THRESHOLD`. -/
def BANDWIDTH_THRESHOLD : ℤ := 10000

/-- The filter loop of `get_drone_regions`. -/
def get_drone_regions (contiguous_signal_regions : List (ℤ × ℤ)) :
    List (ℤ × ℤ) :=
  contiguous_signal_regions.filter (fun r => BANDWIDTH_THRESHOLD < r.2 - r.1)

/-- Lines 132-142 of `analyze`: per-bucket average over the snapshot, in
ascending key order, skipping buckets with no measurement. -/
def bucketAverages (snapshot : List (ℤ × List Measurement)) : List (ℤ × ℚ) :=
  (List.insertionSort (· ≤ ·) (snapshot.map Prod.fst)).foldl
    (fun acc f =>
      let ms := (snapshot.lookup f).getD []
      if ms.length ≠ 0 then
        acc ++ [(f, (ms.map (fun m => m.db)).sum / (ms.length : ℚ))]
      else acc)
    []

/-- Everything `analyze` computes after the snapshot: noise floor, active
buckets and strengths, merged regions, qualifying regions and the printed
verdict. -/
structure AnalysisOutput where
  noise_floor : ℚ
  has_signal : List ℤ
  signal_strengths : List ℚ
  contiguous_regions : List (ℤ × ℤ)
  drone_regions : List (ℤ × ℤ)
  drone_detected : Bool
deriving DecidableEq, Repr

/-- The pure tail of `analyze` (lines 132-164 of `listen.py`), as a
function of the snapshot and the bucket width. -/
def analyzeSnapshot (snapshot : List (ℤ × List Measurement))
    (bucket_width : ℤ) : Except AnalyzeError AnalysisOutput :=
  let averages := bucketAverages snapshot
  match compute_noise_floor averages with
  | .error e => .error e
  | .ok noise_floor =>
    let hs := find_signal_buckets averages noise_floor
    let bucket_ranges := averages.map (fun p => (p.1, p.1, p.1 + bucket_width))
    let contiguous_regions :=
      get_contiguous_regions bucket_width bucket_ranges hs.1 hs.2
    let drone_regions := get_drone_regions contiguous_regions
    .ok { noise_floor := noise_floor, has_signal := hs.1,
          signal_strengths := hs.2, contiguous_regions := contiguous_regions,
          drone_regions := drone_regions,
          drone_detected := !drone_regions.isEmpty }

/-- `analyze(signal_store)` at store level: honours the skip flag, takes
the frozen copy, may fail at the noise floor (before the width check, as
in the source order) or at `get_bucket_width`.  The returned state is the
store as the call leaves it; `none` in the payload is the early return of
the skip path. -/
def analyzeStore (st : SignalStore) :
    SignalStore × Except AnalyzeError (Option AnalysisOutput) :=
  if st.config.skip_analysis then (st, .ok none)
  else
    let measurements := st.get_measurements_copy
    let averages := bucketAverages measurements
    match compute_noise_floor averages with
    | .error e => (st, .error e)
    | .ok noise_floor =>
      let hs := find_signal_buckets averages noise_floor
      match st.get_bucket_width with
      | .error e => (st, .error e)
      | .ok bucket_width =>
        let bucket_ranges :=
          averages.map (fun p => (p.1, p.1, p.1 + bucket_width))
        let contiguous_regions :=
          get_contiguous_regions bucket_width bucket_ranges hs.1 hs.2
        let drone_regions := get_drone_regions contiguous_regions
        (st, .ok (some
          { noise_floor := noise_floor
            has_signal := hs.1
            signal_strengths := hs.2
            contiguous_regions := contiguous_regions
            drone_regions := drone_regions
            drone_detected := !drone_regions.isEmpty }))

/-- Following the claim wording for the calibration capacity, to compare
against the source behaviour: the number of reference-bucket measurements
counted strictly until (and not after) the first measurement whose
timestamp exceeds one second past epoch0. -/
def specRefCountUntilExceed (epoch0 : ℤ) (ref : ℤ)
    (ms : List Measurement) : ℕ :=
  ((ms.takeWhile (fun m => !decide (1 < m.datetime - epoch0))).filter
    (fun m => m.hz_low == ref)).length

/-- State invariant tying a ring buffer to the full history `vs` of values
pushed into it: before wraparound the buffer holds the history verbatim;
after wraparound it holds exactly the last `N` values, rotated at the
cursor, with the cursor equal to the push count modulo `N`. -/
def RbInv {α : Type} (N : ℕ) (vs : List α) (rb : Ringbuf α) : Prop :=
  rb.size = N ∧
  ((rb.full = false ∧ rb.data = vs ∧ rb.cursor = 0 ∧ vs.length < N) ∨
   (rb.full = true ∧ rb.data.length = N ∧ N ≤ vs.length ∧
    rb.cursor = vs.length % N ∧
    rb.data.drop rb.cursor ++ rb.data.take rb.cursor =
      vs.drop (vs.length - N)))

/-- A store built with analysis enabled, as the driver does. -/
def store0 : SignalStore := SignalStore.mk0 { skip_analysis := false }

/-- Reference-bucket measurements for the warmup scenarios: bucket
`[5, 15)`, timestamps 0, 2, 3, 3 seconds. -/
def wm1 : Measurement := { datetime := 0, hz_low := 5, hz_high := 15, db := 0 }

/-- Second warmup measurement (timestamp two seconds past epoch0, the one
whose processing raises the resize flag). -/
def wm2 : Measurement := { datetime := 2, hz_low := 5, hz_high := 15, db := 0 }

/-- Third warmup measurement, arriving after the flag is already raised. -/
def wm3 : Measurement := { datetime := 3, hz_low := 5, hz_high := 15, db := 0 }

/-- Measurement delivered in the batch that performs the resize. -/
def wm4 : Measurement := { datetime := 3, hz_low := 5, hz_high := 15, db := 0 }

/-- The store state reached from `store0` by ingesting `[wm1, wm2]`:
bucket width 10 fixed, reference bucket 5, epoch0 = 0, two reference
measurements counted, resize flag pending, still calibrating. -/
def c5_pre : SignalStore :=
  { ranges := [(5, { size := 200, cursor := 0, data := [wm1, wm2],
                     full := false })],
    BUFSIZE := 200, bucket_width := some 10,
    config := { skip_analysis := false },
    warmed_up := false, warmup_measurement_count := 2,
    warmup_bucket_frequency := 5, warmup_first_datetime := 0,
    warmup_resize_ringbufs := true }

/-- Snapshot for the two-adjacent-active-buckets scenario: four quiet
buckets at 0 dB and the two buckets `[2450, 2460)`, `[2460, 2470)` at
10 dB (noise floor 0, squelch 3, so exactly those two are active). -/
def c1_snapshot : List (ℤ × List Measurement) :=
  [(2400, [{ datetime := 0, hz_low := 2400, hz_high := 2410, db := 0 }]),
   (2410, [{ datetime := 0, hz_low := 2410, hz_high := 2420, db := 0 }]),
   (2420, [{ datetime := 0, hz_low := 2420, hz_high := 2430, db := 0 }]),
   (2430, [{ datetime := 0, hz_low := 2430, hz_high := 2440, db := 0 }]),
   (2450, [{ datetime := 0, hz_low := 2450, hz_high := 2460, db := 10 }]),
   (2460, [{ datetime := 0, hz_low := 2460, hz_high := 2470, db := 10 }])]

/-- Snapshot with only three buckets holding data (noise-floor subset
empty). -/
def c3_snapshot : List (ℤ × List Measurement) :=
  [(0, [{ datetime := 0, hz_low := 0, hz_high := 10, db := 1 }]),
   (10, [{ datetime := 0, hz_low := 10, hz_high := 20, db := 2 }]),
   (20, [{ datetime := 0, hz_low := 20, hz_high := 30, db := 3 }])]

/-- Snapshot with four buckets holding data, all at the same strength, so
the noise floor succeeds and no bucket clears the squelch. -/
def c7_snapshot : List (ℤ × List Measurement) :=
  [(0, [{ datetime := 0, hz_low := 0, hz_high := 10, db := 5 }]),
   (10, [{ datetime := 0, hz_low := 10, hz_high := 20, db := 5 }]),
   (20, [{ datetime := 0, hz_low := 20, hz_high := 30, db := 5 }]),
   (30, [{ datetime := 0, hz_low := 30, hz_high := 40, db := 5 }])]

/-- Snapshot with three frequency-adjacent active buckets `[2450, 2460)`,
`[2460, 2470)`, `[2470, 2480)` at 10 dB over four quiet buckets. -/
def c1b_snapshot : List (ℤ × List Measurement) :=
  [(2400, [{ datetime := 0, hz_low := 2400, hz_high := 2410, db := 0 }]),
   (2410, [{ datetime := 0, hz_low := 2410, hz_high := 2420, db := 0 }]),
   (2420, [{ datetime := 0, hz_low := 2420, hz_high := 2430, db := 0 }]),
   (2430, [{ datetime := 0, hz_low := 2430, hz_high := 2440, db := 0 }]),
   (2450, [{ datetime := 0, hz_low := 2450, hz_high := 2460, db := 10 }]),
   (2460, [{ datetime := 0, hz_low := 2460, hz_high := 2470, db := 10 }]),
   (2470, [{ datetime := 0, hz_low := 2470, hz_high := 2480, db := 10 }])]

/-- What the source computes on `c1_snapshot`: the two adjacent active
buckets produce NO region at all. -/
def c1_out : AnalysisOutput :=
  { noise_floor := 0, has_signal := [2450, 2460],
    signal_strengths := [10, 10], contiguous_regions := [],
    drone_regions := [], drone_detected := false }

/-- What the source computes on `c1b_snapshot`: the three adjacent active
buckets merge into `[2450, 2470)` — ending at the LAST bucket's LOW edge,
not its high edge `2480`. -/
def c1b_out : AnalysisOutput :=
  { noise_floor := 0, has_signal := [2450, 2460, 2470],
    signal_strengths := [10, 10, 10],
    contiguous_regions := [(2450, 2470)],
    drone_regions := [], drone_detected := false }

/-- What the source computes on `c7_snapshot`: floor 5, no active bucket. -/
def c7_out : AnalysisOutput :=
  { noise_floor := 5, has_signal := [], signal_strengths := [],
    contiguous_regions := [], drone_regions := [],
    drone_detected := false }

/-- First batch of the zero-key scenario: the first measurement ever
ingested has `hz_low = 0`. -/
def z1 : Measurement := { datetime := 100, hz_low := 0, hz_high := 10, db := 0 }

/-- Second batch of the zero-key scenario: a nonzero first key. -/
def z2 : Measurement := { datetime := 200, hz_low := 7, hz_high := 17, db := 0 }

/-- Third batch of the zero-key scenario. -/
def z3 : Measurement := { datetime := 300, hz_low := 7, hz_high := 17, db := 0 }

/-- The store after ingesting `[z1]` from scratch: the reference key was
assigned the falsy value 0, so it still reads as unset. -/
def c10_mid : SignalStore :=
  { ranges := [(0, { size := 200, cursor := 0, data := [z1], full := false })],
    BUFSIZE := 200, bucket_width := some 10,
    config := { skip_analysis := false },
    warmed_up := false, warmup_measurement_count := 1,
    warmup_bucket_frequency := 0, warmup_first_datetime := 100,
    warmup_resize_ringbufs := false }

/-- `c10_mid` after ingesting `[z2]`: the reference bucket and epoch0 were
re-assigned from the second batch's first measurement. -/
def c10_post : SignalStore :=
  { ranges := [(0, { size := 200, cursor := 0, data := [z1], full := false }),
               (7, { size := 200, cursor := 0, data := [z2], full := false })],
    BUFSIZE := 200, bucket_width := some 10,
    config := { skip_analysis := false },
    warmed_up := false, warmup_measurement_count := 2,
    warmup_bucket_frequency := 7, warmup_first_datetime := 200,
    warmup_resize_ringbufs := false }

/-- A calibrating store with reference bucket 5 and no resize pending,
ready to count. -/
def c4w_pre : SignalStore :=
  { ranges := [], BUFSIZE := 200, bucket_width := some 10,
    config := { skip_analysis := false },
    warmed_up := false, warmup_measurement_count := 0,
    warmup_bucket_frequency := 5, warmup_first_datetime := 0,
    warmup_resize_ringbufs := false }

/-- `c4w_pre` after ingesting `[wm1]`: one reference measurement counted. -/
def c4w_post : SignalStore :=
  { ranges := [(5, { size := 200, cursor := 0, data := [wm1], full := false })],
    BUFSIZE := 200, bucket_width := some 10,
    config := { skip_analysis := false },
    warmed_up := false, warmup_measurement_count := 1,
    warmup_bucket_frequency := 5, warmup_first_datetime := 0,
    warmup_resize_ringbufs := false }

/-- A store that has already completed its warmup (capacity 3). -/
def c8_store : SignalStore :=
  { ranges := [], BUFSIZE := 3, bucket_width := some 10,
    config := { skip_analysis := false },
    warmed_up := true, warmup_measurement_count := 3,
    warmup_bucket_frequency := 5, warmup_first_datetime := 0,
    warmup_resize_ringbufs := false }

/-- `c8_store` after ingesting `[wm4]`: one post-warmup routed measurement,
capacity and calibration state untouched. -/
def c8_after : SignalStore :=
  { ranges := [(5, { size := 3, cursor := 0, data := [wm4], full := false })],
    BUFSIZE := 3, bucket_width := some 10,
    config := { skip_analysis := false },
    warmed_up := true, warmup_measurement_count := 3,
    warmup_bucket_frequency := 5, warmup_first_datetime := 0,
    warmup_resize_ringbufs := false }

theorem rotate_set_window {α : Type} (data : List α) (c : ℕ) (v : α)
    (hc : c < data.length) :
    (data.set c v).drop ((c + 1) % data.length) ++
      (data.set c v).take ((c + 1) % data.length) =
    (data.drop c ++ data.take c).tail ++ [v] := by
  have hset : data.set c v = data.take c ++ v :: data.drop (c + 1) :=
    List.set_eq_take_cons_drop v hc
  have htake : (data.take c).length = c := by
    simp only [List.length_take]
    omega
  have h2 : data.drop c = data[c] :: data.drop (c + 1) :=
    List.drop_eq_getElem_cons hc
  rcases Nat.lt_or_ge (c + 1) data.length with h | h
  · rw [Nat.mod_eq_of_lt h, hset]
    have h1 : data.take c ++ v :: data.drop (c + 1)
        = (data.take c ++ [v]) ++ data.drop (c + 1) := by simp
    rw [h1, List.drop_left' (by simp [htake]), List.take_left' (by simp [htake])]
    rw [h2]
    simp only [List.cons_append, List.tail_cons, List.append_assoc]
  · have hn : c + 1 = data.length := by omega
    have hD : data.drop (c + 1) = [] := List.drop_eq_nil_of_le (by omega)
    rw [hn, Nat.mod_self]
    simp only [List.drop_zero, List.take_zero, List.append_nil]
    rw [hset, hD, h2, hD]
    simp only [List.singleton_append, List.cons_append, List.tail_cons,
      List.append_assoc, List.nil_append]

theorem RbInv_init {α : Type} {N : ℕ} (hN : 1 ≤ N) :
    RbInv N ([] : List α) (Ringbuf.init N) := by
  refine ⟨rfl, Or.inl ⟨rfl, rfl, rfl, ?_⟩⟩
  simpa using hN

theorem RbInv_add {α : Type} {N : ℕ} (hN : 1 ≤ N) {vs : List α}
    {rb : Ringbuf α} (h : RbInv N vs rb) (v : α) :
    RbInv N (vs ++ [v]) (rb.add v) := by
  obtain ⟨hsize, hcase⟩ := h
  unfold Ringbuf.add
  rcases hcase with ⟨hf, hdata, hcur, hlt⟩ | ⟨hf, hlen, hge, hcur, hwin⟩
  · subst hsize
    subst hdata
    rw [if_neg (by simp [hf])]
    by_cases h2 : rb.size ≤ rb.data.length + 1
    · refine ⟨rfl, Or.inr ⟨?_, ?_, ?_, ?_, ?_⟩⟩
      · show (if rb.size ≤ (rb.data ++ [v]).length then true else rb.full) = true
        rw [if_pos (by simp only [List.length_append, List.length_singleton]; omega)]
      · show (rb.data ++ [v]).length = rb.size
        simp only [List.length_append, List.length_singleton]
        omega
      · show rb.size ≤ (rb.data ++ [v]).length
        simp only [List.length_append, List.length_singleton]
        omega
      · show rb.cursor = (rb.data ++ [v]).length % rb.size
        have hlen2 : (rb.data ++ [v]).length = rb.size := by
          simp only [List.length_append, List.length_singleton]
          omega
        rw [hcur, hlen2, Nat.mod_self]
      · show (rb.data ++ [v]).drop rb.cursor ++ (rb.data ++ [v]).take rb.cursor
            = (rb.data ++ [v]).drop ((rb.data ++ [v]).length - rb.size)
        have hlen2 : (rb.data ++ [v]).length = rb.size := by
          simp only [List.length_append, List.length_singleton]
          omega
        rw [hcur, hlen2, Nat.sub_self]
        simp
    · refine ⟨rfl, Or.inl ⟨?_, rfl, hcur, ?_⟩⟩
      · show (if rb.size ≤ (rb.data ++ [v]).length then true else rb.full) = false
        rw [if_neg (by simp only [List.length_append, List.length_singleton]; omega),
          hf]
      · show (rb.data ++ [v]).length < rb.size
        simp only [List.length_append, List.length_singleton]
        omega
  · rw [if_pos hf]
    have hclt : rb.cursor < rb.data.length := by
      rw [hlen, hcur]
      exact Nat.mod_lt _ (by omega)
    refine ⟨hsize, Or.inr ⟨hf, ?_, ?_, ?_, ?_⟩⟩
    · show (rb.data.set rb.cursor v).length = N
      rw [List.length_set]
      exact hlen
    · show N ≤ (vs ++ [v]).length
      simp only [List.length_append, List.length_singleton]
      omega
    · show (rb.cursor + 1) % rb.data.length = (vs ++ [v]).length % N
      rw [hlen, hcur, Nat.mod_add_mod]
      simp only [List.length_append, List.length_singleton]
    · show (rb.data.set rb.cursor v).drop ((rb.cursor + 1) % rb.data.length) ++
          (rb.data.set rb.cursor v).take ((rb.cursor + 1) % rb.data.length)
          = (vs ++ [v]).drop ((vs ++ [v]).length - N)
      rw [rotate_set_window rb.data rb.cursor v hclt, hwin]
      rw [← List.drop_one, List.drop_drop]
      have hidx : (vs ++ [v]).length - N = (vs.length - N) + 1 := by
        simp only [List.length_append, List.length_singleton]
        omega
      rw [hidx,
        List.drop_append_of_le_length (by omega : vs.length - N + 1 ≤ vs.length)]

theorem RbInv_foldl {α : Type} {N : ℕ} (hN : 1 ≤ N) (vs : List α) :
    ∀ (ws : List α) (rb : Ringbuf α), RbInv N ws rb →
      RbInv N (ws ++ vs) (vs.foldl Ringbuf.add rb) := by
  induction vs with
  | nil => intro ws rb h; simpa using h
  | cons v t ih =>
    intro ws rb h
    have h' := RbInv_add hN h v
    have := ih (ws ++ [v]) (rb.add v) h'
    simpa [List.append_assoc] using this

/-- C6: for every capacity `N ≥ 1` and every push sequence `vs`, the
ring buffer's `get_data_copy` returns exactly the last `min (vs.length) N`
pushed values in chronological order — equivalently, `vs` with all but the
final `N` elements dropped — even across arbitrarily many wraparounds, and
`add` is total. -/
theorem ringbuf_snapshot_min_chronological {α : Type} (N : ℕ) (hN : 1 ≤ N)
    (vs : List α) :
    (vs.foldl Ringbuf.add (Ringbuf.init N)).get_data_copy =
      vs.drop (vs.length - N) ∧
    ((vs.foldl Ringbuf.add (Ringbuf.init N)).get_data_copy).length =
      min vs.length N := by
  have h := RbInv_foldl hN vs [] (Ringbuf.init N) (RbInv_init hN)
  simp only [List.nil_append] at h
  obtain ⟨hsize, hcase⟩ := h
  rcases hcase with ⟨hf, hdata, hcur, hlt⟩ | ⟨hf, hlen, hge, hcur, hwin⟩
  · have hdrop : vs.length - N = 0 := by omega
    have hval : (vs.foldl Ringbuf.add (Ringbuf.init N)).get_data_copy = vs := by
      unfold Ringbuf.get_data_copy
      rw [if_neg (by simp [hf]), hdata]
    refine ⟨by rw [hval, hdrop, List.drop_zero], ?_⟩
    rw [hval, min_eq_left (le_of_lt hlt)]
  · have hval : (vs.foldl Ringbuf.add (Ringbuf.init N)).get_data_copy
        = vs.drop (vs.length - N) := by
      unfold Ringbuf.get_data_copy
      rw [if_pos hf, hwin]
    refine ⟨hval, ?_⟩
    rw [hval, List.length_drop, min_eq_right hge]
    omega

theorem addOne_warmed_up (st : SignalStore) (m : Measurement) :
    (addOne st m).warmed_up = st.warmed_up := by
  simp only [addOne]
  repeat' split
  all_goals rfl

theorem addOne_BUFSIZE (st : SignalStore) (m : Measurement) :
    (addOne st m).BUFSIZE = st.BUFSIZE := by
  simp only [addOne]
  repeat' split
  all_goals rfl

theorem addOne_bucket_width (st : SignalStore) (m : Measurement) :
    (addOne st m).bucket_width = st.bucket_width := by
  simp only [addOne]
  repeat' split
  all_goals rfl

theorem addOne_frequency (st : SignalStore) (m : Measurement) :
    (addOne st m).warmup_bucket_frequency = st.warmup_bucket_frequency := by
  simp only [addOne]
  repeat' split
  all_goals rfl

theorem addOne_first_datetime (st : SignalStore) (m : Measurement) :
    (addOne st m).warmup_first_datetime = st.warmup_first_datetime := by
  simp only [addOne]
  repeat' split
  all_goals rfl

theorem addOne_count (st : SignalStore) (m : Measurement) :
    (addOne st m).warmup_measurement_count =
      (if st.is_warmed_up = false ∧ st.warmup_bucket_frequency = m.hz_low
       then st.warmup_measurement_count + 1
       else st.warmup_measurement_count) := by
  simp only [addOne]
  repeat' split
  all_goals rfl

theorem lookup_append_left {l₁ l₂ : List (ℤ × Ringbuf Measurement)} {k : ℤ}
    (h : (l₁.lookup k).isSome = true) : (l₁ ++ l₂).lookup k = l₁.lookup k := by
  induction l₁ with
  | nil => simp at h
  | cons p t ih =>
    obtain ⟨a, b⟩ := p
    rw [List.cons_append, List.lookup_cons, List.lookup_cons]
    cases hk : k == a with
    | true => rfl
    | false =>
      rw [List.lookup_cons, hk] at h
      exact ih h

theorem assocUpdate_lookup_isSome (l : List (ℤ × Ringbuf Measurement)) (k : ℤ)
    (f : Ringbuf Measurement → Ringbuf Measurement) (q : ℤ) :
    (((assocUpdate l k f).lookup q).isSome) = ((l.lookup q).isSome) := by
  induction l with
  | nil => rfl
  | cons p t ih =>
    obtain ⟨a, b⟩ := p
    unfold assocUpdate
    by_cases hp : a = k
    · rw [if_pos hp]
      rw [List.lookup_cons, List.lookup_cons]
      cases hk : q == a <;> rfl
    · rw [if_neg hp]
      rw [List.lookup_cons, List.lookup_cons]
      cases hk : q == a with
      | true => rfl
      | false => exact ih

theorem addOne_lookup_isSome (st : SignalStore) (m : Measurement) (q : ℤ)
    (h : ((st.ranges.lookup q).isSome) = true) :
    (((addOne st m).ranges.lookup q).isSome) = true := by
  simp only [addOne]
  repeat' split
  all_goals dsimp only
  all_goals
    first
      | (rw [assocUpdate_lookup_isSome]; exact h)
      | (rw [lookup_append_left h]; exact h)

theorem foldl_addOne_warmed_up (ms : List Measurement) (st : SignalStore) :
    (ms.foldl addOne st).warmed_up = st.warmed_up := by
  induction ms generalizing st with
  | nil => rfl
  | cons m t ih => rw [List.foldl_cons, ih, addOne_warmed_up]

theorem foldl_addOne_BUFSIZE (ms : List Measurement) (st : SignalStore) :
    (ms.foldl addOne st).BUFSIZE = st.BUFSIZE := by
  induction ms generalizing st with
  | nil => rfl
  | cons m t ih => rw [List.foldl_cons, ih, addOne_BUFSIZE]

theorem foldl_addOne_bucket_width (ms : List Measurement) (st : SignalStore) :
    (ms.foldl addOne st).bucket_width = st.bucket_width := by
  induction ms generalizing st with
  | nil => rfl
  | cons m t ih => rw [List.foldl_cons, ih, addOne_bucket_width]

theorem foldl_addOne_frequency (ms : List Measurement) (st : SignalStore) :
    (ms.foldl addOne st).warmup_bucket_frequency =
      st.warmup_bucket_frequency := by
  induction ms generalizing st with
  | nil => rfl
  | cons m t ih => rw [List.foldl_cons, ih, addOne_frequency]

theorem foldl_addOne_first_datetime (ms : List Measurement) (st : SignalStore) :
    (ms.foldl addOne st).warmup_first_datetime =
      st.warmup_first_datetime := by
  induction ms generalizing st with
  | nil => rfl
  | cons m t ih => rw [List.foldl_cons, ih, addOne_first_datetime]

theorem foldl_addOne_lookup_isSome (ms : List Measurement) (st : SignalStore)
    (q : ℤ) (h : ((st.ranges.lookup q).isSome) = true) :
    (((ms.foldl addOne st).ranges.lookup q).isSome) = true := by
  induction ms generalizing st with
  | nil => exact h
  | cons m t ih => exact ih (addOne st m) (addOne_lookup_isSome st m q h)

theorem foldl_addOne_count_calibrating (ms : List Measurement)
    (st : SignalStore) (h : st.warmed_up = false) :
    (ms.foldl addOne st).warmup_measurement_count =
      st.warmup_measurement_count +
        (ms.countP (fun m => st.warmup_bucket_frequency == m.hz_low)) := by
  induction ms generalizing st with
  | nil => simp
  | cons m t ih =>
    rw [List.foldl_cons, ih (addOne st m)
      (by rw [addOne_warmed_up]; exact h)]
    rw [addOne_count, addOne_frequency, List.countP_cons]
    unfold SignalStore.is_warmed_up
    rw [h]
    by_cases hm : st.warmup_bucket_frequency = m.hz_low
    · rw [if_pos ⟨rfl, hm⟩, if_pos (by simpa using hm)]
      omega
    · rw [if_neg (by simp [hm]), if_neg (by simpa using hm)]
      omega

theorem foldl_addOne_count_warmed (ms : List Measurement) (st : SignalStore)
    (h : st.warmed_up = true) :
    (ms.foldl addOne st).warmup_measurement_count =
      st.warmup_measurement_count := by
  induction ms generalizing st with
  | nil => rfl
  | cons m t ih =>
    rw [List.foldl_cons, ih (addOne st m) (by rw [addOne_warmed_up]; exact h)]
    rw [addOne_count]
    unfold SignalStore.is_warmed_up
    rw [h]
    simp

/-- Witness for C6 at capacity 2 and five pushes (two full wraparounds). -/
theorem ringbuf_snapshot_min_chronological_witness :
    1 ≤ 2 ∧
    ((([1, 2, 3, 4, 5] : List ℕ).foldl Ringbuf.add
        (Ringbuf.init 2)).get_data_copy =
      [1, 2, 3, 4, 5].drop ([1, 2, 3, 4, 5].length - 2) ∧
    ((([1, 2, 3, 4, 5] : List ℕ).foldl Ringbuf.add
        (Ringbuf.init 2)).get_data_copy).length =
      min ([1, 2, 3, 4, 5] : List ℕ).length 2) :=
  ⟨by decide, ringbuf_snapshot_min_chronological 2 (by decide) [1, 2, 3, 4, 5]⟩

theorem add_measurements_unfold (st : SignalStore) (ms : List Measurement) :
    st.add_measurements ms =
      (match widthStep st ms with
       | .error e => .error e
       | .ok st1 =>
         match refStep st1 ms with
         | .error e => .error e
         | .ok st2 => .ok (ms.foldl addOne (resizeStep st2))) := by
  unfold SignalStore.add_measurements
  cases hw : widthStep st ms with
  | error e => rfl
  | ok st1 => dsimp only

theorem widthStep_cons (st : SignalStore) (m : Measurement)
    (ms : List Measurement) :
    widthStep st (m :: ms) =
      .ok (if intTruthy st.bucket_width = true then st
           else { st with bucket_width := some (m.hz_high - m.hz_low) }) := by
  unfold widthStep
  by_cases h : intTruthy st.bucket_width = true
  · simp only [if_pos h]
  · simp only [if_neg h]

theorem refStep_cons (st : SignalStore) (m : Measurement)
    (ms : List Measurement) :
    refStep st (m :: ms) =
      .ok (if st.warmup_bucket_frequency ≠ 0 then st
           else { st with warmup_bucket_frequency := m.hz_low,
                          warmup_first_datetime := m.datetime }) := by
  unfold refStep
  by_cases h : st.warmup_bucket_frequency ≠ 0
  · simp only [if_pos h]
  · simp only [if_neg h]

theorem widthStep_nil (st : SignalStore) :
    widthStep st [] =
      (if intTruthy st.bucket_width = true then .ok st
       else .error .indexError) := by
  unfold widthStep
  by_cases h : intTruthy st.bucket_width = true
  · simp only [if_pos h]
  · simp only [if_neg h]

theorem refStep_nil (st : SignalStore) :
    refStep st [] =
      (if st.warmup_bucket_frequency ≠ 0 then .ok st
       else .error .indexError) := by
  unfold refStep
  by_cases h : st.warmup_bucket_frequency ≠ 0
  · simp only [if_pos h]
  · simp only [if_neg h]

theorem widthStep_ok_fields (st : SignalStore) (ms : List Measurement)
    (st1 : SignalStore) (h : widthStep st ms = .ok st1) :
    st1.ranges = st.ranges ∧ st1.BUFSIZE = st.BUFSIZE ∧
    st1.warmed_up = st.warmed_up ∧
    st1.warmup_measurement_count = st.warmup_measurement_count ∧
    st1.warmup_bucket_frequency = st.warmup_bucket_frequency ∧
    st1.warmup_first_datetime = st.warmup_first_datetime ∧
    st1.warmup_resize_ringbufs = st.warmup_resize_ringbufs := by
  unfold widthStep at h
  split at h
  · cases h
    exact ⟨rfl, rfl, rfl, rfl, rfl, rfl, rfl⟩
  · cases ms with
    | nil => cases h
    | cons m t =>
      cases h
      exact ⟨rfl, rfl, rfl, rfl, rfl, rfl, rfl⟩

theorem refStep_ok_fields (st : SignalStore) (ms : List Measurement)
    (st1 : SignalStore) (h : refStep st ms = .ok st1) :
    st1.ranges = st.ranges ∧ st1.BUFSIZE = st.BUFSIZE ∧
    st1.warmed_up = st.warmed_up ∧
    st1.warmup_measurement_count = st.warmup_measurement_count ∧
    st1.warmup_resize_ringbufs = st.warmup_resize_ringbufs := by
  unfold refStep at h
  split at h
  · cases h
    exact ⟨rfl, rfl, rfl, rfl, rfl⟩
  · cases ms with
    | nil => cases h
    | cons m t =>
      cases h
      exact ⟨rfl, rfl, rfl, rfl, rfl⟩

theorem resizeStep_frequency (st : SignalStore) :
    (resizeStep st).warmup_bucket_frequency = st.warmup_bucket_frequency := by
  unfold resizeStep
  split
  all_goals rfl

theorem resizeStep_first_datetime (st : SignalStore) :
    (resizeStep st).warmup_first_datetime = st.warmup_first_datetime := by
  unfold resizeStep
  split
  all_goals rfl

theorem resizeStep_count (st : SignalStore) :
    (resizeStep st).warmup_measurement_count =
      st.warmup_measurement_count := by
  unfold resizeStep
  split
  all_goals rfl

theorem resizeStep_of_warmed (st : SignalStore) (h : st.warmed_up = true) :
    resizeStep st = st := by
  unfold resizeStep
  rw [if_neg]
  intro hc
  rw [show st.is_warmed_up = st.warmed_up from rfl, h] at hc
  exact absurd hc.1 (by simp)

theorem resizeStep_of_no_flag (st : SignalStore)
    (h : st.warmup_resize_ringbufs = false) : resizeStep st = st := by
  unfold resizeStep
  rw [if_neg]
  intro hc
  rw [h] at hc
  exact absurd hc.2 (by simp)

theorem add_measurements_ok_of_ready (st : SignalStore)
    (ms : List Measurement) (hbw : intTruthy st.bucket_width = true)
    (hrf : st.warmup_bucket_frequency ≠ 0) :
    st.add_measurements ms = .ok (ms.foldl addOne (resizeStep st)) := by
  rw [add_measurements_unfold]
  cases ms with
  | nil =>
    rw [widthStep_nil, if_pos hbw]
    dsimp only
    rw [refStep_nil, if_pos hrf]
  | cons m t =>
    rw [widthStep_cons, if_pos hbw]
    dsimp only
    rw [refStep_cons, if_pos hrf]

theorem add_measurements_step_monotone (st : SignalStore)
    (ms : List Measurement) (st' : SignalStore)
    (h : st.add_measurements ms = .ok st') :
    (st.warmed_up = true → st'.warmed_up = true ∧ st'.BUFSIZE = st.BUFSIZE ∧
      ∀ q, ((st.ranges.lookup q).isSome = true) →
        ((st'.ranges.lookup q).isSome = true)) ∧
    (st'.BUFSIZE ≠ st.BUFSIZE →
      st.warmed_up = false ∧ st'.warmed_up = true) := by
  rw [add_measurements_unfold] at h
  cases hw : widthStep st ms with
  | error e => rw [hw] at h; cases h
  | ok st1 =>
    rw [hw] at h
    dsimp only at h
    cases hr : refStep st1 ms with
    | error e => rw [hr] at h; cases h
    | ok st2 =>
      rw [hr] at h
      dsimp only at h
      injection h with h
      subst h
      obtain ⟨hw1, hw2, hw3, hw4, hw5, hw6, hw7⟩ :=
        widthStep_ok_fields st ms st1 hw
      obtain ⟨hr1, hr2, hr3, hr4, hr5⟩ := refStep_ok_fields st1 ms st2 hr
      constructor
      · intro hwm
        have hst2w : st2.warmed_up = true := by rw [hr3, hw3]; exact hwm
        have hrs : resizeStep st2 = st2 := resizeStep_of_warmed st2 hst2w
        refine ⟨?_, ?_, ?_⟩
        · rw [foldl_addOne_warmed_up, hrs, hst2w]
        · rw [foldl_addOne_BUFSIZE, hrs, hr2, hw2]
        · intro q hq
          apply foldl_addOne_lookup_isSome
          rw [hrs, hr1, hw1]
          exact hq
      · intro hbuf
        by_cases hcond : st2.warmed_up = false ∧
            st2.warmup_resize_ringbufs = true
        · have hrs : resizeStep st2 =
              { st2 with warmup_resize_ringbufs := false,
                         BUFSIZE := st2.warmup_measurement_count,
                         ranges := [], warmed_up := true } := by
            unfold resizeStep
            rw [if_pos ?_]
            exact ⟨hcond.1, hcond.2⟩
          constructor
          · rw [← hw3, ← hr3]
            exact hcond.1
          · rw [foldl_addOne_warmed_up, hrs]
        · have hrs : resizeStep st2 = st2 := by
            unfold resizeStep
            rw [if_neg (fun hc => hcond ⟨hc.1, hc.2⟩)]
          exfalso
          apply hbuf
          rw [foldl_addOne_BUFSIZE, hrs, hr2, hw2]

/-- C8: over every successful sequence of ingest calls, the calibration
state is monotone (once warmed, always warmed), a warmed store's capacity
is never mutated again and its bucket keys are never torn down, and any
capacity change over the run witnesses exactly the calibrating-to-warmed
transition (it can only happen starting from a calibrating store and
leaves the store warmed). -/
theorem calibration_monotone (bs : List (List Measurement))
    (st st' : SignalStore) (h : ingestMany st bs = .ok st') :
    (st.warmed_up = true → st'.warmed_up = true ∧ st'.BUFSIZE = st.BUFSIZE ∧
      ∀ q, ((st.ranges.lookup q).isSome = true) →
        ((st'.ranges.lookup q).isSome = true)) ∧
    (st'.BUFSIZE ≠ st.BUFSIZE →
      st.warmed_up = false ∧ st'.warmed_up = true) := by
  induction bs generalizing st with
  | nil =>
    unfold ingestMany at h
    cases h
    exact ⟨fun hw => ⟨hw, rfl, fun q hq => hq⟩, fun hb => absurd rfl hb⟩
  | cons b t ih =>
    unfold ingestMany at h
    cases hb : st.add_measurements b with
    | error e => rw [hb] at h; cases h
    | ok st1 =>
      rw [hb] at h
      have hstep := add_measurements_step_monotone st b st1 hb
      have hrest := ih st1 h
      constructor
      · intro hw
        obtain ⟨h1, h2, h3⟩ := hstep.1 hw
        obtain ⟨h4, h5, h6⟩ := hrest.1 h1
        exact ⟨h4, by rw [h5, h2], fun q hq => h6 q (h3 q hq)⟩
      · intro hbuf
        by_cases hmid : st1.BUFSIZE = st.BUFSIZE
        · have hbuf2 : st'.BUFSIZE ≠ st1.BUFSIZE := by rw [hmid]; exact hbuf
          obtain ⟨h1, h2⟩ := hrest.2 hbuf2
          constructor
          · cases hws : st.warmed_up with
            | false => rfl
            | true => exact absurd (hstep.1 hws).1 (by rw [h1]; simp)
          · exact h2
        · obtain ⟨h1, h2⟩ := hstep.2 hmid
          exact ⟨h1, (hrest.1 h2).1⟩

/-- Witness for C8: one post-warmup ingest on a warmed store keeps it
warmed, keeps the capacity, and keeps the (empty) key set. -/
theorem calibration_monotone_witness :
    c8_after.warmed_up = true ∧ c8_after.BUFSIZE = c8_store.BUFSIZE :=
  have h : ingestMany c8_store [[wm4]] = .ok c8_after := by rfl
  have hm := (calibration_monotone [[wm4]] c8_store c8_after h).1 rfl
  ⟨hm.1, hm.2.1⟩

/-- C4 (amended): the capacity installed at the calibrating-to-warmed
transition is the reference-bucket count accumulated up to the start of
the resize-performing ingest call, not the count truncated at the first
timestamp beyond one second past epoch0: while still calibrating with no
resize pending, EVERY reference-bucket measurement of a batch increments
the counter (including the flag-raising one and all later ones), and the
resize call then freezes the counter and installs it as the capacity. -/
theorem warmup_capacity_counts_until_resize (st : SignalStore)
    (ms : List Measurement) (st' : SignalStore)
    (hbw : intTruthy st.bucket_width = true)
    (hrf : st.warmup_bucket_frequency ≠ 0)
    (hwm : st.warmed_up = false)
    (hok : st.add_measurements ms = .ok st') :
    (st.warmup_resize_ringbufs = true →
      st'.BUFSIZE = st.warmup_measurement_count ∧ st'.warmed_up = true ∧
      st'.warmup_measurement_count = st.warmup_measurement_count) ∧
    (st.warmup_resize_ringbufs = false →
      st'.BUFSIZE = st.BUFSIZE ∧ st'.warmed_up = false ∧
      st'.warmup_measurement_count = st.warmup_measurement_count +
        (ms.countP (fun m => st.warmup_bucket_frequency == m.hz_low))) := by
  rw [add_measurements_ok_of_ready st ms hbw hrf] at hok
  injection hok with hok
  subst hok
  constructor
  · intro hflag
    have hrs : resizeStep st =
        { st with warmup_resize_ringbufs := false,
                  BUFSIZE := st.warmup_measurement_count,
                  ranges := [], warmed_up := true } := by
      unfold resizeStep
      rw [if_pos ?_]
      exact ⟨by rw [show st.is_warmed_up = st.warmed_up from rfl, hwm], hflag⟩
    refine ⟨?_, ?_, ?_⟩
    · rw [foldl_addOne_BUFSIZE, hrs]
    · rw [foldl_addOne_warmed_up, hrs]
    · rw [foldl_addOne_count_warmed _ _ (by rw [hrs]), hrs]
  · intro hflag
    have hrs : resizeStep st = st := resizeStep_of_no_flag st hflag
    refine ⟨?_, ?_, ?_⟩
    · rw [foldl_addOne_BUFSIZE, hrs]
    · rw [foldl_addOne_warmed_up, hrs, hwm]
    · rw [foldl_addOne_count_calibrating _ _ (by rw [hrs]; exact hwm), hrs]

/-- Witness for C4 (amended), at a calibrating store with no pending
resize ingesting one reference measurement. -/
theorem warmup_capacity_counts_until_resize_witness :
    c4w_post.BUFSIZE = c4w_pre.BUFSIZE ∧ c4w_post.warmed_up = false ∧
    c4w_post.warmup_measurement_count =
      c4w_pre.warmup_measurement_count +
        ([wm1].countP
          (fun m => c4w_pre.warmup_bucket_frequency == m.hz_low)) :=
  (warmup_capacity_counts_until_resize c4w_pre [wm1] c4w_post
    (by decide) (by decide) rfl (by rfl)).2 rfl

/-- Counterexample to C4 as stated: with reference-bucket measurements at
0 s, 2 s and 3 s in one batch, the counter reaches 2 when the flag is
raised but still climbs to 3 afterwards, and the installed capacity is 3,
whereas the count strictly up to the first timestamp beyond one second
past epoch0 is 1. -/
theorem warmup_capacity_claim_counterexample :
    (store0.add_measurements [wm1, wm2]).map
        (fun s => (s.warmup_measurement_count, s.warmup_resize_ringbufs))
      = .ok (2, true) ∧
    (store0.add_measurements [wm1, wm2, wm3]).map
        (fun s => s.warmup_measurement_count) = .ok 3 ∧
    (ingestMany store0 [[wm1, wm2, wm3], [wm4]]).map (fun s => s.BUFSIZE)
      = .ok 3 ∧
    specRefCountUntilExceed 0 5 [wm1, wm2, wm3, wm4] = 1 ∧
    (3 : ℕ) ≠ 1 :=
  ⟨rfl, rfl, rfl, rfl, by decide⟩

/-- C5 (amended): `ingest([])` raises the out-of-range error exactly when
the bucket width or the reference key is still falsy, and then without
mutation; once both are set it SUCCEEDS, and acts as the pending resize
step (a mutation when a resize is pending on a calibrating store, the
identity otherwise). -/
theorem empty_ingest_characterization (st : SignalStore) :
    ((intTruthy st.bucket_width = false ∨ st.warmup_bucket_frequency = 0) →
      st.add_measurements [] = .error .indexError) ∧
    (intTruthy st.bucket_width = true → st.warmup_bucket_frequency ≠ 0 →
      st.add_measurements [] = .ok (resizeStep st)) ∧
    (¬(st.warmed_up = false ∧ st.warmup_resize_ringbufs = true) →
      resizeStep st = st) := by
  refine ⟨?_, ?_, ?_⟩
  · rintro (hwf | hrf0)
    · rw [add_measurements_unfold, widthStep_nil, if_neg (by rw [hwf]; simp)]
    · rw [add_measurements_unfold, widthStep_nil]
      by_cases hwt : intTruthy st.bucket_width = true
      · rw [if_pos hwt]
        dsimp only
        rw [refStep_nil, if_neg (by simp [hrf0])]
      · rw [if_neg hwt]
  · intro hwt hrf
    rw [add_measurements_ok_of_ready st [] hwt hrf]
    rfl
  · intro hc
    unfold resizeStep
    rw [if_neg]
    intro hcc
    exact hc ⟨hcc.1, hcc.2⟩

/-- Witness for C5 (amended): on the reachable pending-resize state
`c5_pre`, the empty ingest succeeds and performs the resize. -/
theorem empty_ingest_characterization_witness :
    c5_pre.add_measurements [] = .ok (resizeStep c5_pre) :=
  (empty_ingest_characterization c5_pre).2.1 (by decide) (by decide)

/-- Counterexample to C5 as stated: on the state reached by ingesting
`[wm1, wm2]` (resize pending), `ingest([])` does NOT fail — it succeeds —
and it mutates the store: the calibration state flips to warmed, the
capacity drops from 200 to 2, and every ring buffer is destroyed. -/
theorem empty_ingest_claim_counterexample :
    store0.add_measurements [wm1, wm2] = .ok c5_pre ∧
    (c5_pre.add_measurements []).map
        (fun s => (s.warmed_up, s.BUFSIZE, s.ranges)) = .ok (true, 2, []) ∧
    c5_pre.warmed_up = false ∧ c5_pre.BUFSIZE = 200 ∧ c5_pre.ranges ≠ [] :=
  ⟨rfl, rfl, rfl, rfl, by decide⟩

/-- C10 (amended): while the stored reference key is still 0 — as after a
first-ever measurement with `low_hz = 0`, and for as long as each batch's
first measurement keeps `low_hz = 0` — every ingest call re-assigns the
reference bucket and epoch0 from its own first measurement, so epoch0
tracks the latest such batch; the re-assignment stops permanently once a
batch's first measurement carries a nonzero key. -/
theorem zero_key_reference_reassignment (st : SignalStore)
    (m : Measurement) (ms : List Measurement) (st' : SignalStore)
    (h0 : st.warmup_bucket_frequency = 0)
    (hok : st.add_measurements (m :: ms) = .ok st') :
    st'.warmup_bucket_frequency = m.hz_low ∧
    st'.warmup_first_datetime = m.datetime := by
  rw [add_measurements_unfold, widthStep_cons] at hok
  dsimp only at hok
  set st1 := (if intTruthy st.bucket_width = true then st
      else { st with bucket_width := some (m.hz_high - m.hz_low) })
    with hst1
  have h01 : st1.warmup_bucket_frequency = 0 := by
    rw [hst1]
    by_cases hwt : intTruthy st.bucket_width = true
    · rw [if_pos hwt]; exact h0
    · rw [if_neg hwt]; exact h0
  rw [refStep_cons, if_neg (by simp [h01])] at hok
  dsimp only at hok
  injection hok with hok
  subst hok
  constructor
  · rw [foldl_addOne_frequency, resizeStep_frequency]
  · rw [foldl_addOne_first_datetime, resizeStep_first_datetime]

/-- Witness for C10 (amended): a second call on a store whose reference
key is still 0 re-assigns reference and epoch0 from that call's first
measurement. -/
theorem zero_key_reference_reassignment_witness :
    store0.add_measurements [z1] = .ok c10_mid ∧
    c10_post.warmup_bucket_frequency = z2.hz_low ∧
    c10_post.warmup_first_datetime = z2.datetime :=
  ⟨rfl, zero_key_reference_reassignment c10_mid z2 [] c10_post rfl (by rfl)⟩

/-- Counterexample to C10 as stated: with batches starting at keys 0, 7, 7
the third ingest call does NOT re-assign epoch0 — once batch two installed
the nonzero key 7, epoch0 stays at 200 and does not track the latest batch
(timestamp 300). -/
theorem zero_key_reference_claim_counterexample :
    (ingestMany store0 [[z1], [z2], [z3]]).map
        (fun s => (s.warmup_bucket_frequency, s.warmup_first_datetime))
      = .ok (7, 200) ∧
    (200 : ℤ) ≠ 300 :=
  ⟨rfl, by decide⟩

theorem avgStep_foldl_length (snap : List (ℤ × List Measurement))
    (ks : List ℤ) :
    ∀ acc : List (ℤ × ℚ),
      (ks.foldl (fun acc f =>
          let ms := (snap.lookup f).getD []
          if ms.length ≠ 0 then
            acc ++ [(f, (ms.map (fun m => m.db)).sum / (ms.length : ℚ))]
          else acc) acc).length
        = acc.length +
            ks.countP
              (fun f => decide (((snap.lookup f).getD []).length ≠ 0)) := by
  induction ks with
  | nil => intro acc; simp
  | cons k t ih =>
    intro acc
    rw [List.foldl_cons, List.countP_cons]
    dsimp only
    by_cases h : ((snap.lookup k).getD []).length ≠ 0
    · rw [if_pos h, ih]
      rw [if_pos (by simpa using h)]
      simp only [List.length_append, List.length_singleton]
      omega
    · rw [if_neg h, ih]
      rw [if_neg (by simpa using h)]
      omega

theorem bucketAverages_length (snap : List (ℤ × List Measurement)) :
    (bucketAverages snap).length =
      (List.insertionSort (· ≤ ·) (snap.map Prod.fst)).countP
        (fun f => decide (((snap.lookup f).getD []).length ≠ 0)) := by
  unfold bucketAverages
  rw [avgStep_foldl_length]
  simp

theorem lookup_cons_ne {β : Type} {t : List (ℤ × β)} {a : ℤ} {b : β}
    {f : ℤ} (h : f ≠ a) :
    List.lookup f ((a, b) :: t) = List.lookup f t := by
  rw [List.lookup_cons]
  have hb : (f == a) = false := by simpa using h
  rw [hb]

theorem countP_lookup_keys (snap : List (ℤ × List Measurement))
    (hnd : (snap.map Prod.fst).Nodup) :
    (snap.map Prod.fst).countP
        (fun f => decide (((snap.lookup f).getD []).length ≠ 0))
      = snap.countP (fun p => decide (p.2.length ≠ 0)) := by
  induction snap with
  | nil => rfl
  | cons p t ih =>
    obtain ⟨a, b⟩ := p
    simp only [List.map_cons] at hnd ⊢
    obtain ⟨ha, hnd'⟩ := List.nodup_cons.mp hnd
    rw [List.countP_cons, List.countP_cons]
    have h1 : (t.map Prod.fst).countP
          (fun f =>
            decide (((List.lookup f ((a, b) :: t)).getD []).length ≠ 0))
        = (t.map Prod.fst).countP
          (fun f => decide (((List.lookup f t).getD []).length ≠ 0)) := by
      apply List.countP_congr
      intro f hf
      have hne : f ≠ a := fun hfa => ha (hfa ▸ hf)
      rw [lookup_cons_ne hne]
    have hhead : List.lookup a ((a, b) :: t) = some b :=
      List.lookup_cons_self
    rw [h1, ih hnd', hhead]
    rfl

/-- C3: with distinct bucket keys, the pure analysis pass fails — with the
typed error modelling the division by zero in `compute_noise_floor` —
exactly when fewer than four snapshot buckets hold at least one
measurement; with four or more, the noise floor and the whole pass
succeed. -/
theorem analyze_insufficient_data_iff
    (snapshot : List (ℤ × List Measurement)) (bucket_width : ℤ)
    (hnd : (snapshot.map Prod.fst).Nodup) :
    (snapshot.countP (fun p => decide (p.2.length ≠ 0)) < 4 →
      analyzeSnapshot snapshot bucket_width = .error .insufficientData) ∧
    (4 ≤ snapshot.countP (fun p => decide (p.2.length ≠ 0)) →
      ∃ r, analyzeSnapshot snapshot bucket_width = .ok r) := by
  have hlen : (bucketAverages snapshot).length
      = snapshot.countP (fun p => decide (p.2.length ≠ 0)) := by
    rw [bucketAverages_length, (List.perm_insertionSort _ _).countP_eq,
      countP_lookup_keys snapshot hnd]
  have hslen : (List.insertionSort (· ≤ ·)
        ((bucketAverages snapshot).map Prod.snd)).length
      = (bucketAverages snapshot).length := by
    rw [(List.perm_insertionSort _ _).length_eq, List.length_map]
  constructor
  · intro h4
    have hcf : compute_noise_floor (bucketAverages snapshot)
        = .error .insufficientData := by
      unfold compute_noise_floor
      dsimp only
      rw [if_pos (Nat.div_eq_of_lt (by omega))]
    unfold analyzeSnapshot
    dsimp only
    rw [hcf]
  · intro h4
    unfold analyzeSnapshot
    dsimp only
    cases hc : compute_noise_floor (bucketAverages snapshot) with
    | error e =>
      exfalso
      unfold compute_noise_floor at hc
      dsimp only at hc
      split at hc
      · next hq =>
        rw [hslen, hlen] at hq
        omega
      · cases hc
    | ok nf =>
      exact ⟨_, rfl⟩

/-- Witness for C3 at a three-bucket snapshot. -/
theorem analyze_insufficient_data_iff_witness :
    (c3_snapshot.map Prod.fst).Nodup ∧
    c3_snapshot.countP (fun p => decide (p.2.length ≠ 0)) < 4 ∧
    analyzeSnapshot c3_snapshot 10 = .error .insufficientData :=
  ⟨by decide, by decide,
    (analyze_insufficient_data_iff c3_snapshot 10 (by decide)).1 (by decide)⟩

theorem gcr_nil_of_le_one (bucket_width : ℤ)
    (bucket_ranges : List (ℤ × ℤ × ℤ)) (has_signal : List ℤ)
    (signal_strengths : List ℚ) (h : has_signal.length ≤ 1) :
    get_contiguous_regions bucket_width bucket_ranges has_signal
      signal_strengths = [] := by
  unfold get_contiguous_regions
  rw [if_neg]
  rw [List.length_map]
  omega

/-- C7: whenever the analysis pass succeeds with at most one active
bucket, the contiguous-region merge yields no region at all (a lone
active bucket is never reported as a one-bucket region) and the verdict
is `present = false`, even though that bucket exceeds the squelch. -/
theorem lone_active_bucket_no_region
    (snapshot : List (ℤ × List Measurement)) (bucket_width : ℤ)
    (r : AnalysisOutput)
    (hok : analyzeSnapshot snapshot bucket_width = .ok r)
    (hle : r.has_signal.length ≤ 1) :
    r.contiguous_regions = [] ∧ r.drone_detected = false := by
  unfold analyzeSnapshot at hok
  dsimp only at hok
  cases hc : compute_noise_floor (bucketAverages snapshot) with
  | error e => rw [hc] at hok; cases hok
  | ok nf =>
    rw [hc] at hok
    dsimp only at hok
    injection hok with hok
    subst hok
    dsimp only at hle ⊢
    rw [gcr_nil_of_le_one _ _ _ _ hle]
    exact ⟨rfl, rfl⟩

/-- Witness for C7: four equally loud buckets give zero active buckets,
no region, `present = false`. -/
theorem lone_active_bucket_no_region_witness :
    c7_out.contiguous_regions = [] ∧ c7_out.drone_detected = false :=
  lone_active_bucket_no_region c7_snapshot 10 c7_out
    (by norm_num [analyzeSnapshot, bucketAverages, compute_noise_floor,
      find_signal_buckets, get_contiguous_regions, get_drone_regions,
      ccrOuter, ccrInner, List.insertionSort, List.orderedInsert,
      List.lookup_cons_self, lookup_cons_ne, c7_snapshot, c7_out])
    (by decide)

/-- C1, evaluated on the failing input: with exactly the two
frequency-adjacent buckets `[2450, 2460)` and `[2460, 2470)` active, the
source merge produces NO region (it demands strictly more than two active
buckets) and the verdict is `present = false` — not the single region
`[2450, 2470)` with `present = true` the claim states.  With three
adjacent active buckets the merge runs but ends the region at the LAST
bucket's LOW edge (`[2450, 2470)` instead of `[2450, 2480)`), refuting
the claim's general first-low-to-last-high form as well. -/
theorem contiguous_merge_two_active_eval :
    analyzeSnapshot c1_snapshot 10 = .ok c1_out ∧
    c1_out.has_signal = [2450, 2460] ∧
    c1_out.contiguous_regions = [] ∧
    c1_out.drone_detected = false ∧
    analyzeSnapshot c1b_snapshot 10 = .ok c1b_out ∧
    c1b_out.contiguous_regions = [(2450, 2470)] :=
  ⟨by norm_num [analyzeSnapshot, bucketAverages, compute_noise_floor,
      find_signal_buckets, get_contiguous_regions, get_drone_regions,
      ccrOuter, ccrInner, List.insertionSort, List.orderedInsert,
      List.lookup_cons_self, lookup_cons_ne, BANDWIDTH_THRESHOLD,
      c1_snapshot, c1_out],
   rfl, rfl, rfl,
   by norm_num [analyzeSnapshot, bucketAverages, compute_noise_floor,
      find_signal_buckets, get_contiguous_regions, get_drone_regions,
      ccrOuter, ccrInner, List.insertionSort, List.orderedInsert,
      List.lookup_cons_self, lookup_cons_ne, BANDWIDTH_THRESHOLD,
      c1b_snapshot, c1b_out],
   rfl⟩

/-- C2, evaluated on the failing input: the bandwidth constant in the
source is `10000` (its own comment says 10 MHz), so a contiguous region
only 20,000 Hz wide is returned as a drone region and flips the verdict
to `present = true`, although the claimed 10,000,000 Hz threshold would
reject it. -/
theorem bandwidth_threshold_eval :
    BANDWIDTH_THRESHOLD = 10000 ∧
    get_drone_regions [((2450000000 : ℤ), 2450020000)]
      = [((2450000000 : ℤ), 2450020000)] ∧
    (!(get_drone_regions [((2450000000 : ℤ), 2450020000)]).isEmpty) = true ∧
    ((2450020000 : ℤ) - 2450000000 = 20000 ∧ (20000 : ℤ) < 10000000) :=
  ⟨rfl, by decide, by decide, by decide⟩

/-- C9: the store-level `analyze` never changes the store — the state it
returns is its input state, for every store — and (for a fixed value of
the skip flag it reads) its verdict depends only on the frozen snapshot
and the bucket width it reads. -/
theorem analyze_pure_frame :
    (∀ st : SignalStore, (analyzeStore st).1 = st) ∧
    (∀ st1 st2 : SignalStore,
      st1.config.skip_analysis = st2.config.skip_analysis →
      st1.get_measurements_copy = st2.get_measurements_copy →
      st1.get_bucket_width = st2.get_bucket_width →
      (analyzeStore st1).2 = (analyzeStore st2).2) := by
  constructor
  · intro st
    unfold analyzeStore
    dsimp only
    repeat' split
    all_goals rfl
  · intro st1 st2 hskip hcopy hwidth
    unfold analyzeStore
    rw [hskip, hcopy, hwidth]
    dsimp only
    repeat' split
    all_goals rfl

/-- Witness for C9 on a concrete store. -/
theorem analyze_pure_frame_witness :
    (analyzeStore store0).1 = store0 ∧
    (analyzeStore store0).2 = (analyzeStore store0).2 :=
  ⟨analyze_pure_frame.1 store0,
   analyze_pure_frame.2 store0 store0 rfl rfl rfl⟩

end DroneDetect
